import Mathlib

/-!
Verification of the `black-hole` CPU path tracer (ray marcher over signed
distance fields with gravitational distortions).

Shallow embedding: `f64` values are modelled as real numbers, vectors
(`cgmath::Vector3<f64>`) as a record of three reals, and the polymorphic
trait objects (`dyn Shape`, `dyn SolidShader`, ...) as records of functions.
The global thread RNG (`rand_unit` / `thread_rng`) is modelled as an
abstract stream `ℕ → ℝ` of draws together with an explicitly threaded
position in that stream.  Every definition is translated from the Rust
source; source locations are cited next to each definition.
-/

open Classical

noncomputable section

namespace BlackHole

/-- 3-component vector of `f64`, cgmath's `Vector3<f64>`. -/
structure Vec3 where
  x : ℝ
  y : ℝ
  z : ℝ

def Vec3.add (a b : Vec3) : Vec3 := ⟨a.x + b.x, a.y + b.y, a.z + b.z⟩

def Vec3.sub (a b : Vec3) : Vec3 := ⟨a.x - b.x, a.y - b.y, a.z - b.z⟩

/-- Scalar multiplication `v * s` (cgmath `Vector3<f64> * f64`). -/
def Vec3.smul (a : Vec3) (s : ℝ) : Vec3 := ⟨a.x * s, a.y * s, a.z * s⟩

/-- Componentwise division by a scalar, cgmath `Vector3<f64> / f64`. -/
def Vec3.divScalar (a : Vec3) (s : ℝ) : Vec3 := ⟨a.x / s, a.y / s, a.z / s⟩

/-- cgmath `InnerSpace::dot`. -/
def Vec3.dot (a b : Vec3) : ℝ := a.x * b.x + a.y * b.y + a.z * b.z

/-- Squared length of a vector (cgmath `magnitude2`). -/
def Vec3.norm2 (a : Vec3) : ℝ := a.dot a

/-- cgmath `InnerSpace::magnitude`. -/
def Vec3.magnitude (a : Vec3) : ℝ := Real.sqrt a.norm2

/-- cgmath `InnerSpace::normalize`: `v / v.magnitude()`. -/
def Vec3.normalize (a : Vec3) : Vec3 := a.divScalar a.magnitude

/-- cgmath `ElementWise::mul_element_wise` (componentwise product). -/
def Vec3.mulElementWise (a b : Vec3) : Vec3 := ⟨a.x * b.x, a.y * b.y, a.z * b.z⟩

def Vec3.zero : Vec3 := ⟨0, 0, 0⟩

instance : Add Vec3 := ⟨Vec3.add⟩

instance : Sub Vec3 := ⟨Vec3.sub⟩

/-- `blackhole/src/lib.rs`: `enum RayKind { Primary, Secondary }`. -/
inductive RayKind where
  | Primary
  | Secondary

/-- `blackhole/src/lib.rs`: `struct Ray`. -/
structure Ray where
  location : Vec3
  direction : Vec3
  steps_taken : ℕ
  kind : RayKind

/-- `blackhole/src/lib.rs` `Ray::advance`:
`self.location += self.direction * dist; self.steps_taken += 1;`. -/
def Ray.advance (r : Ray) (dist : ℝ) : Ray :=
  { r with
    location := r.location + r.direction.smul dist
    steps_taken := r.steps_taken + 1 }

/-- `blackhole/src/lib.rs` `Ray::reflect`:
direction becomes `self.direction - 2.0 * self.direction.dot(normal) * normal`,
`steps_taken` resets to 0, kind becomes Secondary. -/
def Ray.reflect (r : Ray) (normal : Vec3) : Ray :=
  { location := r.location
    direction := r.direction - normal.smul (2 * r.direction.dot normal)
    steps_taken := 0
    kind := RayKind.Secondary }

/-- `f64::MAX`, used as the initial step distance in the marching loop.
`f64::MAX = (2 - 2⁻⁵²)·2¹⁰²³ = 2¹⁰²⁴ - 2⁹⁷¹`. -/
def f64Max : ℝ := 2 ^ 1024 - 2 ^ 971

/-! ## Pixels and framebuffer (`src/framebuffer.rs`) -/

/-- `src/framebuffer.rs` `struct Pixel { r, g, b, a: f32 }`, modelled over ℝ. -/
structure Pixel where
  r : ℝ
  g : ℝ
  b : ℝ
  a : ℝ

/-- `Pixel::black()`: zero colour, alpha 1. -/
def Pixel.black : Pixel := ⟨0, 0, 0, 1⟩

/-- `impl Add<Pixel> for Pixel` (componentwise, alpha included). -/
def Pixel.add (p q : Pixel) : Pixel := ⟨p.r + q.r, p.g + q.g, p.b + q.b, p.a + q.a⟩

/-- `impl Mul<f32> for Pixel` (scales all four channels). -/
def Pixel.scale (p : Pixel) (s : ℝ) : Pixel := ⟨p.r * s, p.g * s, p.b * s, p.a * s⟩

/-- `impl From<Vector3<f64>> for Pixel`: rgb from the vector, alpha 1. -/
def Pixel.fromVec3 (v : Vec3) : Pixel := ⟨v.x, v.y, v.z, 1⟩

/-- `src/framebuffer.rs` `struct FrameBuffer`. -/
structure FrameBuffer where
  width : ℕ
  height : ℕ
  buffer : List Pixel

/-- `src/framebuffer.rs` `FrameBuffer::pixel_mut`:
```
let index = x + y * self.width;
if index >= self.width * self.height { return None; }
Some(&mut self.buffer[index])
```
The indexing `self.buffer[index]` panics when out of bounds; the panic is
modelled by `List.get?` returning `none`. -/
def FrameBuffer.pixelMut (fb : FrameBuffer) (x y : ℕ) : Option Pixel :=
  let index := x + y * fb.width
  if fb.width * fb.height ≤ index then none
  else fb.buffer.get? index

/-! ## Scene escape distance (`src/scene.rs`) -/

/-- An axis-aligned bounding box as the `[f64; 6]` array
`[x_min, x_max, y_min, y_max, z_min, z_max]` returned by
`Renderable::bounding_box` (`src/object.rs`). -/
structure BBox where
  x_min : ℝ
  x_max : ℝ
  y_min : ℝ
  y_max : ℝ
  z_min : ℝ
  z_max : ℝ

/-- Accumulator for the six running bounds in `Scene::max_possible_step`. -/
structure Bounds where
  min_x : ℝ
  max_x : ℝ
  min_y : ℝ
  max_y : ℝ
  min_z : ℝ
  max_z : ℝ

/-- Body of the `for object in &self.objects` loop of
`Scene::max_possible_step` (`src/scene.rs`): objects without a bounding box
are skipped, otherwise each bound is min/maxed with the box. -/
def boundsStep (acc : Bounds) (ob : Option BBox) : Bounds :=
  match ob with
  | none => acc
  | some bb =>
      ⟨min acc.min_x bb.x_min, max acc.max_x bb.x_max,
       min acc.min_y bb.y_min, max acc.max_y bb.y_max,
       min acc.min_z bb.z_min, max acc.max_z bb.z_max⟩

/-- `src/scene.rs` `Scene::max_possible_step(origin)`, verbatim from the
source, including `let delta_z = max_z - min_y;` (the bounds are seeded with
the origin coordinate on each axis).  The scene is represented by the list of
its objects' bounding boxes, which is all this function reads. -/
def maxPossibleStep (objects : List (Option BBox)) (origin : Vec3) : ℝ :=
  let bounds := objects.foldl boundsStep
    ⟨origin.x, origin.x, origin.y, origin.y, origin.z, origin.z⟩
  let delta_x := bounds.max_x - bounds.min_x
  let delta_y := bounds.max_y - bounds.min_y
  let delta_z := bounds.max_z - bounds.min_y
  let delta_xy := Real.sqrt (delta_x * delta_x + delta_y * delta_y)
  Real.sqrt (delta_xy * delta_xy + delta_z * delta_z)

/-! ## Cylinder shape (`src/object/shape/cylinder.rs`) -/

/-- Squared distance between the `xz()` projections of two vectors
(cgmath `Vector2::distance2`). -/
def xzDistance2 (a b : Vec3) : ℝ := (a.x - b.x) ^ 2 + (a.z - b.z) ^ 2

/-- Distance between the `xz()` projections (cgmath `Vector2::distance`). -/
def xzDistance (a b : Vec3) : ℝ := Real.sqrt (xzDistance2 a b)

/-- `src/object/shape/cylinder.rs` `struct Cylinder` (the cached bounding box
is recomputed from the fields by `computeBB` below). -/
structure Cylinder where
  center : Vec3
  radius : ℝ
  height : ℝ

/-- `Cylinder::dist_fn` (`src/object/shape/cylinder.rs`), verbatim:
the point is first made relative to the center, but the xz distance is then
measured against `self.center.xz()` again. -/
def Cylinder.dist_fn (c : Cylinder) (point : Vec3) : ℝ :=
  let relative_point := point - c.center
  if c.height ≤ |relative_point.y| then
    if xzDistance2 relative_point c.center ≤ c.radius ^ 2 then
      |relative_point.y| - c.height
    else
      let dist_to_center := xzDistance relative_point c.center - c.radius
      let dist_to_side := |relative_point.y| - c.height
      Real.sqrt (dist_to_center * dist_to_center + dist_to_side * dist_to_side)
  else
    xzDistance2 relative_point c.center - c.radius ^ 2

/-- `Cylinder::compute_bb` (`src/object/shape/cylinder.rs`):
center ± radius on x and z, center ± height on y (the `0.00` inflation of the
source is kept). -/
def Cylinder.computeBB (c : Cylinder) : BBox :=
  ⟨c.center.x - c.radius - 0.00, c.center.x + c.radius + 0.00,
   c.center.y - c.height - 0.00, c.center.y + c.height + 0.00,
   c.center.z - c.radius - 0.00, c.center.z + c.radius + 0.00⟩

/-- A point strictly outside an axis-aligned bounding box: strictly beyond
the box on at least one axis. -/
def BBox.strictlyOutside (bb : BBox) (p : Vec3) : Prop :=
  p.x < bb.x_min ∨ bb.x_max < p.x ∨ p.y < bb.y_min ∨ bb.y_max < p.y ∨
    p.z < bb.z_min ∨ bb.z_max < p.z

/-! ## Camera (`blackhole/src/camera.rs`) -/

/-- cgmath `Matrix3<f64>` as nine entries; `mulVec` is the usual
matrix-vector product. -/
structure Mat3 where
  m00 : ℝ
  m01 : ℝ
  m02 : ℝ
  m10 : ℝ
  m11 : ℝ
  m12 : ℝ
  m20 : ℝ
  m21 : ℝ
  m22 : ℝ

def Mat3.mulVec (m : Mat3) (v : Vec3) : Vec3 :=
  ⟨m.m00 * v.x + m.m01 * v.y + m.m02 * v.z,
   m.m10 * v.x + m.m11 * v.y + m.m12 * v.z,
   m.m20 * v.x + m.m21 * v.y + m.m22 * v.z⟩

def Mat3.identity : Mat3 := ⟨1, 0, 0, 0, 1, 0, 0, 0, 1⟩

/-- `blackhole/src/camera.rs` `struct Camera`. -/
structure Camera where
  location : Vec3
  hor_fov : ℝ
  rot_mat : Mat3

/-- `Camera::cast_ray` (`blackhole/src/camera.rs`), verbatim: `side` is
scaled by `tan(hor_fov / 360 * π)`, `up` by the same factor and then divided
by `aspect_ratio`. -/
def Camera.cast_ray (cam : Camera) (x y aspect : ℝ) : Ray :=
  let side := cam.rot_mat.mulVec ⟨1, 0, 0⟩
  let up := cam.rot_mat.mulVec ⟨0, 1, 0⟩
  let forward := cam.rot_mat.mulVec ⟨0, 0, -1⟩
  let side := side.smul (Real.tan (cam.hor_fov / 360 * Real.pi))
  let up := (up.smul (Real.tan (cam.hor_fov / 360 * Real.pi))).divScalar aspect
  let direction := ((forward + side.smul (2 * x - 1)) - up.smul (2 * y - 1)).normalize
  { location := cam.location
    direction := direction
    steps_taken := 0
    kind := RayKind.Primary }

/-! ## Pixel filters (`blackhole/src/filter.rs`)

The seeded `Xoshiro256StarStar` generator is modelled as an abstract stream
`ℕ → ℝ` of unit draws plus an index into the stream; `gen_range(a..b)` is
modelled as `a + u * (b - a)` with `u` the next unit draw.  The claims
settled here do not depend on the concrete pseudo-random values. -/

/-- `blackhole/src/filter.rs` `struct BoxFilter` (generator modelled as a
draw stream plus current position). -/
structure BoxFilter where
  generator : ℕ → ℝ
  genIndex : ℕ
  first_sample : Bool
  filter_size : ℝ

/-- `BoxFilter::new`: seeded generator, `first_sample: true`. -/
def BoxFilter.new (filter_size : ℝ) (gen : ℕ → ℝ) : BoxFilter :=
  ⟨gen, 0, true, filter_size⟩

/-- `<BoxFilter as Iterator>::next` (`blackhole/src/filter.rs`): on the first
call returns `(0.5, 0.5)`, afterwards jitter drawn from
`-(filter_size/2)..(filter_size/2)` plus `(0.5, 0.5)`.  Returns the produced
offset together with the updated filter state (the source mutates `self`). -/
def BoxFilter.next (f : BoxFilter) : (ℝ × ℝ) × BoxFilter :=
  if f.first_sample = false then
    let x := -(f.filter_size / 2) + f.generator f.genIndex * f.filter_size
    let y := -(f.filter_size / 2) + f.generator (f.genIndex + 1) * f.filter_size
    ((x + 0.5, y + 0.5), { f with genIndex := f.genIndex + 2 })
  else
    ((0.5, 0.5), { f with first_sample := false })

/-- `blackhole/src/filter.rs` `struct BlackmanHarrisFilter`.  The lookup
table built by `generate_lut` (numeric integration of the Blackman-Harris
window) is modelled as an abstract function `ℝ → ℝ`; the claims settled here
do not depend on its concrete values. -/
structure BlackmanHarrisFilter where
  generator : ℕ → ℝ
  genIndex : ℕ
  first_sample : Bool
  filter_size : ℝ
  lut : ℝ → ℝ

/-- `BlackmanHarrisFilter::new` (`blackhole/src/filter.rs`), verbatim: the
source initializes `first_sample: false` (unlike `BoxFilter::new`). -/
def BlackmanHarrisFilter.new (filter_size : ℝ) (gen : ℕ → ℝ) (lut : ℝ → ℝ) :
    BlackmanHarrisFilter :=
  ⟨gen, 0, false, filter_size, lut⟩

/-- `<BlackmanHarrisFilter as Iterator>::next` (`blackhole/src/filter.rs`):
when `first_sample` is false, draws `x, y ∈ 0.0..1.0`, warps them through the
lookup table, recenters and scales by `filter_size`, and adds `(0.5, 0.5)`;
otherwise clears `first_sample` and returns `(0.5, 0.5)`. -/
def BlackmanHarrisFilter.next (f : BlackmanHarrisFilter) :
    (ℝ × ℝ) × BlackmanHarrisFilter :=
  if f.first_sample = false then
    let x0 := f.generator f.genIndex
    let y0 := f.generator (f.genIndex + 1)
    let x := (f.lut x0 - 0.5) * f.filter_size
    let y := (f.lut y0 - 0.5) * f.filter_size
    ((x + 0.5, y + 0.5), { f with genIndex := f.genIndex + 2 })
  else
    ((0.5, 0.5), { f with first_sample := false })

/-! ## Shapes, shaders, objects (`blackhole/src/object.rs`, `shader.rs`) -/

/-- `blackhole/src/material.rs` `struct MaterialResult`. -/
structure MaterialResult where
  emission : Vec3
  albedo : Vec3

/-- `MaterialResult::black()`. -/
def MaterialResult.black : MaterialResult := ⟨Vec3.zero, Vec3.zero⟩

/-- A `dyn Shape` trait object (`blackhole/src/object/shape.rs`): its
distance function, advisory ray-culling test and normal estimate. -/
structure Shape where
  dist_fn : Vec3 → ℝ
  can_ray_hit : Ray → Prop
  normal : Vec3 → ℝ → Vec3

/-- `dyn SolidShader` (`blackhole/src/shader.rs`):
`material_at(ray, normal) -> (MaterialResult, Option<Ray>)`. -/
structure SolidShader where
  material_at : Ray → Vec3 → MaterialResult × Option Ray

/-- `dyn VolumetricShader` (`blackhole/src/shader.rs`). -/
structure VolumetricShader where
  density_at : Vec3 → ℝ
  material_at : Ray → MaterialResult × Option Ray

/-- `blackhole/src/object.rs` `enum Shading`. -/
inductive Shading where
  | solid (shader : SolidShader)
  | volumetric (shader : VolumetricShader)

/-- `blackhole/src/object.rs` `struct Object`. -/
structure Object where
  shape : Shape
  shading : Shading

/-- `Object::shade` (`blackhole/src/object.rs`): solid shaders receive the
shape normal at the hit location with ε = 0.00001. -/
def Object.shade (o : Object) (ray : Ray) : MaterialResult × Option Ray :=
  match o.shading with
  | Shading.solid s => s.material_at ray (o.shape.normal ray.location 0.00001)
  | Shading.volumetric v => v.material_at ray

/-- `blackhole/src/object/shape/sphere.rs` `struct Sphere` (the cached
bounding box is a function of these fields). -/
structure Sphere where
  center : Vec3
  radius : ℝ

/-- `Sphere::dist_fn`: `(point - center).magnitude() - radius`. -/
def Sphere.dist_fn (s : Sphere) (point : Vec3) : ℝ :=
  (point - s.center).magnitude - s.radius

/-- `Sphere::can_ray_hit` (`blackhole/src/object/shape/sphere.rs`): the
exact sphere/ray test — false iff the squared distance from the center to
the ray's line exceeds `radius²`. -/
def Sphere.can_ray_hit (s : Sphere) (ray : Ray) : Prop :=
  let l := s.center - ray.location
  let tca := l.dot ray.direction
  let d2 := l.dot l - tca * tca
  ¬ (s.radius ^ 2 < d2)

/-- `blackhole/src/object/distortion.rs` `struct Distortion`. -/
structure Distortion where
  strength : ℝ
  shape : Sphere

/-- `Distortion::dist_fn`. -/
def Distortion.dist_fn (d : Distortion) (point : Vec3) : ℝ :=
  d.shape.dist_fn point

/-- `Distortion::strength(point)` (`blackhole/src/object/distortion.rs`):
`strength / (dist_fn(point) + radius)²`.  Named `strengthAt` because the
field is already called `strength`. -/
def Distortion.strengthAt (d : Distortion) (point : Vec3) : ℝ :=
  d.strength / (d.dist_fn point + d.shape.radius) ^ 2

/-- `Distortion::can_ray_hit`: delegates to the sphere test. -/
def Distortion.can_ray_hit (d : Distortion) (ray : Ray) : Prop :=
  d.shape.can_ray_hit ray

/-- `blackhole/src/scene.rs` `struct Scene` (struct layout as used by
`marcher.rs`: object list, distortion list, background shader — modelled by
its `emission_at` function — and camera). -/
structure Scene where
  objects : List Object
  distortions : List Distortion
  background : Ray → Vec3
  camera : Camera

/-! ## Ray marcher (`blackhole/src/marcher.rs`) -/

/-- `blackhole/src/marcher.rs` `enum RenderMode` (re-exported from lib.rs). -/
inductive RenderMode where
  | Samples
  | Normal
  | Shaded

/-- `blackhole/src/marcher.rs` `struct RayMarcher`. -/
structure RayMarcher where
  mode : RenderMode
  samples : ℕ
  max_steps : ℕ
  max_depth : ℕ

/-- `impl Default for RayMarcher` (`blackhole/src/marcher.rs`):
`max_steps: 2 << 16` (= 131072), `max_depth: 16`. -/
def RayMarcher.defaultMarcher : RayMarcher :=
  ⟨RenderMode.Shaded, 128, 131072, 16⟩

/-- `march_to_object`, distortion scan (`blackhole/src/marcher.rs`): for each
distortion, skip it when `can_ray_hit` is false; otherwise push it onto
`active_distortions` when `dist ≤ 0` and shrink `dst` to
`min dst (max dist 0.1)`.  The accumulator is the pair
(`active_distortions`, `dst`). -/
def distortionStep (ray : Ray) (acc : List Distortion × ℝ) (d : Distortion) :
    List Distortion × ℝ :=
  if ¬ d.can_ray_hit ray then acc
  else
    let dist := d.dist_fn ray.location
    let newActive := if dist ≤ 0 then acc.1 ++ [d] else acc.1
    (newActive, min acc.2 (max dist 0.1))

/-- Result of the per-iteration object scan: either an early stochastic
volumetric hit (`hit`) or the final step distance, solid candidate and RNG
position (`cont`). -/
inductive ObjScan where
  | hit (o : Object) (k : ℕ)
  | cont (dst : ℝ) (cand : Option Object) (k : ℕ)

/-- `march_to_object`, object scan (`blackhole/src/marcher.rs`), verbatim:

* solid objects are skipped when
  `!object.shape.can_ray_hit(ray) && !active_distortions.is_empty()`;
  otherwise, when their distance is below `dst`, they shrink `dst` and
  become the candidate hit;
* volumetric objects inside (`dist < 0`) shrink `dst` to at most `0.01` and
  draw `r = rand_unit()`; when `density_at(p) * dst > r` they are returned
  immediately; outside, they shrink `dst` to at least `0.002`.

`rng` is the abstract RNG stream and `k` the position in it. -/
def objectsScan (rng : ℕ → ℝ) (active : List Distortion) (ray : Ray) :
    List Object → ℝ → Option Object → ℕ → ObjScan
  | [], dst, cand, k => ObjScan.cont dst cand k
  | o :: rest, dst, cand, k =>
    match o.shading with
    | Shading.solid _ =>
      if ¬ o.shape.can_ray_hit ray ∧ active ≠ [] then
        objectsScan rng active ray rest dst cand k
      else
        let obj_dist := o.shape.dist_fn ray.location
        if obj_dist < dst then
          objectsScan rng active ray rest (min dst obj_dist) (some o) k
        else
          objectsScan rng active ray rest dst cand k
    | Shading.volumetric shader =>
      let obj_dist := o.shape.dist_fn ray.location
      if obj_dist < 0 then
        let dst' := min dst 0.01
        if shader.density_at ray.location * dst' > rng k then ObjScan.hit o (k + 1)
        else objectsScan rng active ray rest dst' cand (k + 1)
      else if obj_dist < dst then
        objectsScan rng active ray rest (min dst (max obj_dist 0.002)) cand k
      else
        objectsScan rng active ray rest dst cand k

/-- The updated ray direction of one distortion application
(`blackhole/src/marcher.rs`): `(ray.direction + force).normalize()`. -/
def distortionNewDir (direction force : Vec3) : Vec3 :=
  (direction + force).normalize

/-- `march_to_object`, distortion application
(`for distortion in &active_distortions` in `blackhole/src/marcher.rs`):
per active distortion, return `None` when `strength > 9.0`; otherwise bend
the direction by `force = normalize(center - p) * dst * strength` and return
`None` when `dot(old_dir, new_dir) < -0.0`.  Returns the ray with its final
direction, or `none` when the ray is lost. -/
def applyDistortions (dst : ℝ) : List Distortion → Ray → Option Ray
  | [], ray => some ray
  | d :: rest, ray =>
    let strength := d.strengthAt ray.location
    if 9 < strength then none
    else
      let force := (((d.shape.center - ray.location).normalize).smul dst).smul strength
      let new_dir := distortionNewDir ray.direction force
      if ray.direction.dot new_dir < -0 then none
      else applyDistortions dst rest { ray with direction := new_dir }

/-- `blackhole/src/marcher.rs` `enum MarchResult`.  The `none` case covers
both a lost ray and an exhausted step budget. -/
inductive MarchResult where
  | object (o : Object)
  | background (direction : Vec3)
  | none

/-- The `loop` of `RayMarcher::march_to_object` (`blackhole/src/marcher.rs`).
Per iteration: distortion scan, object scan, solid-candidate check
(`dst < 0.00001`), distortion application, background check
(`dst > max_step`), step-budget check (`i >= self.max_steps`), then
`ray.advance(dst)`.  Returns the march result, the mutated ray and the final
RNG position. -/
def marchLoop (m : RayMarcher) (scene : Scene) (maxStep : ℝ) (rng : ℕ → ℝ)
    (ray : Ray) (i k : ℕ) : MarchResult × Ray × ℕ :=
  let ad := scene.distortions.foldl (distortionStep ray) ([], f64Max)
  let active := ad.1
  match objectsScan rng active ray scene.objects ad.2 none k with
  | ObjScan.hit o k' => (MarchResult.object o, ray, k')
  | ObjScan.cont dst cand k' =>
    let hitNow : Option Object :=
      match cand with
      | some o => if dst < 0.00001 then some o else none
      | none => none
    match hitNow with
    | some o => (MarchResult.object o, ray, k')
    | none =>
      match applyDistortions dst active ray with
      | none => (MarchResult.none, ray, k')
      | some ray' =>
        if maxStep < dst then (MarchResult.background ray'.direction, ray', k')
        else if hstep : m.max_steps ≤ i then (MarchResult.none, ray', k')
        else marchLoop m scene maxStep rng (ray'.advance dst) (i + 1) k'
termination_by m.max_steps + 1 - i
decreasing_by omega

/-- `RayMarcher::march_to_object` (`blackhole/src/marcher.rs`): the loop
with `i = 0`. -/
def marchToObject (m : RayMarcher) (scene : Scene) (maxStep : ℝ)
    (rng : ℕ → ℝ) (ray : Ray) (k : ℕ) : MarchResult × Ray × ℕ :=
  marchLoop m scene maxStep rng ray 0 k

/-- `RayMarcher::get_color` (`blackhole/src/marcher.rs`): shades the object,
then overrides the material according to the render mode; the continuation
ray passes through unchanged in every mode. -/
def getColor (m : RayMarcher) (ray : Ray) (render_mode : RenderMode)
    (object : Object) : MaterialResult × Option Ray :=
  let res := object.shade ray
  match render_mode with
  | RenderMode.Shaded => res
  | RenderMode.Normal =>
    let eps := 0.00001
    let normal := (object.shape.normal ray.location eps).smul 0.5 + ⟨0.5, 0.5, 0.5⟩
    (⟨normal, Vec3.zero⟩, res.2)
  | RenderMode.Samples => (⟨Vec3.zero, Vec3.zero⟩, res.2)

/-- `blackhole/src/marcher.rs` `struct RayResult`. -/
structure RayResult where
  steps : ℕ
  color : Vec3

/-- `RayMarcher::color_for_ray` (`blackhole/src/marcher.rs`):
depth cut-off, march, mode-dispatched shading, recursion along the
continuation ray with `emission + albedo ⊙ reflected.color`. -/
def colorForRay (m : RayMarcher) (scene : Scene) (maxStep : ℝ)
    (rng : ℕ → ℝ) (ray : Ray) (depth : ℕ) (k : ℕ) : RayResult :=
  if hd : m.max_depth ≤ depth then ⟨ray.steps_taken, Vec3.zero⟩
  else
    match marchToObject m scene maxStep rng ray k with
    | (MarchResult.object o, ray', k') =>
      match getColor m ray' m.mode o with
      | (mat, some new_ray) =>
        let color_reflected := colorForRay m scene maxStep rng new_ray (depth + 1) k'
        ⟨color_reflected.steps,
         mat.emission + mat.albedo.mulElementWise color_reflected.color⟩
      | (mat, none) => ⟨ray'.steps_taken, mat.emission⟩
    | (MarchResult.background _, ray', _) =>
      ⟨ray'.steps_taken, scene.background ray'⟩
    | (MarchResult.none, ray', _) => ⟨ray'.steps_taken, Vec3.zero⟩
termination_by m.max_depth - depth
decreasing_by omega

/-! ## CLI renderer pixel accumulation
(`blackhole/src/bin/blackhole/renderer/cli.rs`, `CliRenderer::scanline`) -/

/-- The per-pixel write of one sample in `CliRenderer::scanline`:
mode `Samples` adds the step count into the red channel, every other mode
blends the sample colour into the running mean
`pixel * (i/(i+1)) + color * (1/(i+1))`. -/
def pixelSampleWrite (mode : RenderMode) (base : Pixel) (sample : ℕ)
    (steps : ℕ) (color : Vec3) : Pixel :=
  match mode with
  | RenderMode.Samples => base.add ⟨(steps : ℕ), 0, 0, 0⟩
  | _ =>
    (base.scale ((sample : ℝ) / ((sample : ℝ) + 1))).add
      ((Pixel.fromVec3 color).scale (1 / ((sample : ℝ) + 1)))

/-- Accumulation of the per-sample results `(steps, colour)` of one pixel
over the sample loop `for i in 0..self.samples` of `CliRenderer::render`,
starting at sample index `i` with current pixel value `p`. -/
def accumFrom (mode : RenderMode) : List (ℕ × Vec3) → ℕ → Pixel → Pixel
  | [], _, p => p
  | s :: rest, i, p => accumFrom mode rest (i + 1) (pixelSampleWrite mode p i s.1 s.2)

/-- Full accumulation of a pixel over a render: all samples applied in order
to the zero-initialized pixel (`FrameBuffer::new` fills with
`Pixel::black()`). -/
def renderAccum (mode : RenderMode) (samples : List (ℕ × Vec3)) : Pixel :=
  accumFrom mode samples 0 Pixel.black

/-! ## Concrete instances used by counterexamples and witnesses -/

/-- The all-zero RNG stream. -/
def rngZero : ℕ → ℝ := fun _ => 0

/-- A concrete primary ray at the origin looking along -z. -/
def rayZ : Ray := ⟨Vec3.zero, ⟨0, 0, -1⟩, 0, RayKind.Primary⟩

/-- A shape whose culling test always fails but that is within the solid-hit
threshold of every point. -/
def shapeNoHitNear : Shape := ⟨fun _ => 0.000001, fun _ => False, fun _ _ => Vec3.zero⟩

/-- A solid shader terminating every path (no continuation ray). -/
def shaderEnd : SolidShader := ⟨fun _ _ => (MaterialResult.black, none)⟩

/-- Solid object with an always-false culling test, distance 1e-6. -/
def objNoHitNear : Object := ⟨shapeNoHitNear, Shading.solid shaderEnd⟩

/-- The default distortion of `Distortion::new()`: strength 0.3, sphere of
radius 5 at the origin. -/
def distortionDefault : Distortion := ⟨0.3, ⟨Vec3.zero, 5⟩⟩

/-- A shape at distance 0 from everywhere, never culled. -/
def shapeHit : Shape := ⟨fun _ => 0, fun _ => True, fun _ _ => Vec3.zero⟩

/-- A shape at constant distance 1, never culled. -/
def shapeFar : Shape := ⟨fun _ => 1, fun _ => True, fun _ _ => Vec3.zero⟩

/-- A concrete material with nonzero emission and albedo. -/
def matRed : MaterialResult := ⟨⟨1, 0, 0⟩, ⟨1/2, 1/2, 1/2⟩⟩

/-- A concrete continuation ray. -/
def rayCont : Ray := ⟨⟨0, 0, 0⟩, ⟨1, 0, 0⟩, 0, RayKind.Secondary⟩

/-- Solid shader returning `matRed` and continuation `rayCont`. -/
def shaderCont : SolidShader := ⟨fun _ _ => (matRed, some rayCont)⟩

/-- Solid shader returning `matRed` with no continuation. -/
def shaderEmit : SolidShader := ⟨fun _ _ => (matRed, none)⟩

def objHitCont : Object := ⟨shapeHit, Shading.solid shaderCont⟩

def objHitEnd : Object := ⟨shapeHit, Shading.solid shaderEmit⟩

def objFar : Object := ⟨shapeFar, Shading.solid shaderEnd⟩

/-- Constant gray background shader. -/
def bgGray : Ray → Vec3 := fun _ => ⟨1/2, 1/2, 1/2⟩

/-- Identity-rotation camera at the origin with 90° horizontal fov. -/
def camIdent : Camera := ⟨Vec3.zero, 90, Mat3.identity⟩

def sceneHitCont : Scene := ⟨[objHitCont], [], bgGray, camIdent⟩

def sceneHitEnd : Scene := ⟨[objHitEnd], [], bgGray, camIdent⟩

def sceneEmpty : Scene := ⟨[], [], bgGray, camIdent⟩

def sceneFar : Scene := ⟨[objFar], [], bgGray, camIdent⟩

/-- Marcher in Shaded mode with `max_steps = 1`, `max_depth = 1`. -/
def mShaded1 : RayMarcher := ⟨RenderMode.Shaded, 1, 1, 1⟩

/-- Marcher in Shaded mode with `max_steps = 0` (step budget exhausts in the
first iteration), `max_depth = 1`. -/
def mShaded0 : RayMarcher := ⟨RenderMode.Shaded, 1, 0, 1⟩

/-- Cylinder with a non-origin center `(10, 0, 0)`, radius 1, height 1. -/
def cylOff : Cylinder := ⟨⟨10, 0, 0⟩, 1, 1⟩

/-- A point strictly outside `cylOff`'s bounding box. -/
def ptOut : Vec3 := ⟨20.5, 0, 0⟩

/-- A 2×2 framebuffer with four distinct pixels. -/
def fbW : FrameBuffer :=
  ⟨2, 2, [⟨0, 0, 0, 1⟩, ⟨1, 0, 0, 1⟩, ⟨0, 1, 0, 1⟩, ⟨0, 0, 1, 1⟩]⟩

/-! # Theorems -/

/-- Unfolding lemma for the `Add Vec3` instance. -/
theorem Vec3.add_def (a b : Vec3) : a + b = ⟨a.x + b.x, a.y + b.y, a.z + b.z⟩ := rfl

/-- Unfolding lemma for the `Sub Vec3` instance. -/
theorem Vec3.sub_def (a b : Vec3) : a - b = ⟨a.x - b.x, a.y - b.y, a.z - b.z⟩ := rfl

/-- The squared norm is nonnegative. -/
theorem Vec3.norm2_nonneg (v : Vec3) : 0 ≤ v.norm2 := by
  unfold Vec3.norm2 Vec3.dot
  nlinarith [sq_nonneg v.x, sq_nonneg v.y, sq_nonneg v.z]

/-- The squared norm vanishes only on the zero vector. -/
theorem Vec3.norm2_eq_zero_iff (v : Vec3) : v.norm2 = 0 ↔ v = Vec3.zero := by
  unfold Vec3.norm2 Vec3.dot Vec3.zero
  constructor
  · intro h
    have hx : v.x = 0 := by nlinarith [sq_nonneg v.x, sq_nonneg v.y, sq_nonneg v.z]
    have hy : v.y = 0 := by nlinarith [sq_nonneg v.x, sq_nonneg v.y, sq_nonneg v.z]
    have hz : v.z = 0 := by nlinarith [sq_nonneg v.x, sq_nonneg v.y, sq_nonneg v.z]
    cases v
    simp_all
  · intro h
    rw [h]
    norm_num

/-- Normalizing a nonzero vector yields a vector of squared norm 1. -/
theorem Vec3.norm2_normalize (v : Vec3) (hv : v ≠ Vec3.zero) :
    v.normalize.norm2 = 1 := by
  have hn : v.norm2 ≠ 0 := fun h => hv ((Vec3.norm2_eq_zero_iff v).mp h)
  have hpos : 0 < v.norm2 := lt_of_le_of_ne (Vec3.norm2_nonneg v) (Ne.symm hn)
  have hs : 0 < Real.sqrt v.norm2 := Real.sqrt_pos.mpr hpos
  have hs2 : Real.sqrt v.norm2 * Real.sqrt v.norm2 = v.norm2 :=
    Real.mul_self_sqrt (Vec3.norm2_nonneg v)
  unfold Vec3.normalize Vec3.magnitude Vec3.divScalar
  unfold Vec3.norm2 Vec3.dot at *
  field_simp

/-- C2 (code_bug evidence): on a scene with no objects and camera origin
`(0, 3, 7)`, `max_possible_step` returns 4, because the source computes
`delta_z = max_z - min_y`; the claimed diagonal of the enclosing box — a
degenerate box around the origin with Δx = Δy = Δz = 0 — is 0. -/
theorem C2_max_possible_step_delta_z_bug :
    maxPossibleStep [] ⟨0, 3, 7⟩ = 4 ∧
    Real.sqrt ((0 - 0) * (0 - 0) + (3 - 3) * (3 - 3) + (7 - 7) * (7 - 7)) = 0 := by
  constructor
  · unfold maxPossibleStep
    simp only [List.foldl]
    norm_num
    rw [show (16 : ℝ) = 4 ^ 2 by norm_num]
    exact Real.sqrt_sq (by norm_num)
  · norm_num

/-- C3 (code_bug evidence): the cylinder with center `(10, 0, 0)`, radius 1,
height 1 reports a negative distance `-(3/4)` at the point `(20.5, 0, 0)`,
which lies strictly outside its bounding box — `dist_fn` subtracts the
center from the query point and then measures the xz distance against the
center again. -/
theorem C3_cylinder_dist_negative_outside_bb :
    (cylOff.computeBB).strictlyOutside ptOut ∧
    cylOff.dist_fn ptOut = -(3 / 4) := by
  constructor
  · unfold Cylinder.computeBB BBox.strictlyOutside cylOff ptOut
    norm_num
  · unfold Cylinder.dist_fn cylOff ptOut
    simp only [Vec3.sub_def]
    norm_num [xzDistance2]

/-- C10: given the framebuffer invariant `buffer.length = width · height`,
`pixel_mut(x, y)` returns `Some` exactly when the linear index
`x + y·width` is below `width·height` (no panic is possible), and in that
case it returns the pixel at that linear index — even when `x ≥ width`, in
which case the pixel belongs to a later row. -/
theorem C10_pixel_mut_linear_index (fb : FrameBuffer) (x y : ℕ)
    (h : fb.buffer.length = fb.width * fb.height) :
    ((fb.pixelMut x y).isSome ↔ x + y * fb.width < fb.width * fb.height) ∧
    (x + y * fb.width < fb.width * fb.height →
      fb.pixelMut x y = fb.buffer.get? (x + y * fb.width)) := by
  unfold FrameBuffer.pixelMut
  constructor
  · by_cases hc : fb.width * fb.height ≤ x + y * fb.width
    · rw [if_pos hc]
      simp only [Option.isSome_none, Bool.false_eq_true, false_iff]
      omega
    · rw [if_neg hc]
      rw [List.get?_eq_getElem?]
      constructor
      · intro _
        omega
      · intro hlt
        rw [List.getElem?_eq_getElem (by omega)]
        rfl
  · intro hlt
    rw [if_neg (by omega)]

/-- C10 witness: in the 2×2 framebuffer `fbW`, the out-of-row access
`pixel_mut(3, 0)` still returns `Some` because its linear index 3 is in
bounds. -/
theorem C10_pixel_mut_linear_index_witness :
    fbW.buffer.length = fbW.width * fbW.height ∧ (fbW.pixelMut 3 0).isSome := by
  have h : fbW.buffer.length = fbW.width * fbW.height := by
    unfold fbW
    rfl
  exact ⟨h, ((C10_pixel_mut_linear_index fbW 3 0 h).1).mpr (by norm_num [fbW])⟩

/-- Channelwise invariant of the CLI running-mean accumulation: after
processing the samples starting at index `i`, each colour channel times the
total sample count equals the channel's start value times `i` plus the sum
of the per-sample contributions. -/
theorem accumFrom_channels (mode : RenderMode) (hm : mode ≠ RenderMode.Samples) :
    ∀ (samples : List (ℕ × Vec3)) (i : ℕ) (p : Pixel),
      ((accumFrom mode samples i p).r * ((i : ℝ) + samples.length) =
          p.r * i + (samples.map fun s => s.2.x).sum) ∧
      ((accumFrom mode samples i p).g * ((i : ℝ) + samples.length) =
          p.g * i + (samples.map fun s => s.2.y).sum) ∧
      ((accumFrom mode samples i p).b * ((i : ℝ) + samples.length) =
          p.b * i + (samples.map fun s => s.2.z).sum) := by
  intro samples
  induction samples with
  | nil =>
    intro i p
    simp [accumFrom]
  | cons s rest ih =>
    intro i p
    have hw : pixelSampleWrite mode p i s.1 s.2 =
        (p.scale ((i : ℝ) / ((i : ℝ) + 1))).add
          ((Pixel.fromVec3 s.2).scale (1 / ((i : ℝ) + 1))) := by
      cases mode with
      | Samples => exact absurd rfl hm
      | Normal => rfl
      | Shaded => rfl
    have hne : ((i : ℝ) + 1) ≠ 0 := by positivity
    obtain ⟨ihr, ihg, ihb⟩ :=
      ih (i + 1) ((p.scale ((i : ℝ) / ((i : ℝ) + 1))).add
        ((Pixel.fromVec3 s.2).scale (1 / ((i : ℝ) + 1))))
    simp only [accumFrom, hw, List.length_cons, List.map_cons, List.sum_cons]
    simp only [Pixel.scale, Pixel.add, Pixel.fromVec3] at ihr ihg ihb ⊢
    push_cast at ihr ihg ihb ⊢
    refine ⟨?_, ?_, ?_⟩
    · rw [show (i : ℝ) + (rest.length + 1) = ((i : ℝ) + 1) + rest.length by ring, ihr]
      field_simp
      ring
    · rw [show (i : ℝ) + (rest.length + 1) = ((i : ℝ) + 1) + rest.length by ring, ihg]
      field_simp
      ring
    · rw [show (i : ℝ) + (rest.length + 1) = ((i : ℝ) + 1) + rest.length by ring, ihb]
      field_simp
      ring

/-- C6: in any render mode other than `Samples`, the per-sample pixel update
is `pixel ← pixel·(i/(i+1)) + color·(1/(i+1))`, and consequently, over the
reals, accumulating any nonempty list of per-sample colours into a
zero-initialized pixel yields exactly their arithmetic mean in each of the
r, g, b channels. -/
theorem C6_running_mean (mode : RenderMode) (hm : mode ≠ RenderMode.Samples)
    (samples : List (ℕ × Vec3)) (hne : samples ≠ []) :
    (∀ (p : Pixel) (i steps : ℕ) (c : Vec3),
      pixelSampleWrite mode p i steps c =
        (p.scale ((i : ℝ) / ((i : ℝ) + 1))).add
          ((Pixel.fromVec3 c).scale (1 / ((i : ℝ) + 1)))) ∧
    (renderAccum mode samples).r = (samples.map fun s => s.2.x).sum / samples.length ∧
    (renderAccum mode samples).g = (samples.map fun s => s.2.y).sum / samples.length ∧
    (renderAccum mode samples).b = (samples.map fun s => s.2.z).sum / samples.length := by
  have hlen : ((samples.length : ℝ)) ≠ 0 := by
    have : 0 < samples.length := List.length_pos.mpr hne
    positivity
  obtain ⟨hr, hg, hb⟩ := accumFrom_channels mode hm samples 0 Pixel.black
  simp only [Pixel.black, Nat.cast_zero, zero_add, mul_zero, zero_mul] at hr hg hb
  refine ⟨?_, ?_, ?_, ?_⟩
  · intro p i steps c
    cases mode with
    | Samples => exact absurd rfl hm
    | Normal => rfl
    | Shaded => rfl
  · rw [eq_div_iff hlen]
    unfold renderAccum
    simpa using hr
  · rw [eq_div_iff hlen]
    unfold renderAccum
    simpa using hg
  · rw [eq_div_iff hlen]
    unfold renderAccum
    simpa using hb

/-- C6 witness: the mean of the two samples `(1,2,3)` and `(3,4,5)` is
`(2, 3, 4)`. -/
theorem C6_running_mean_witness :
    (RenderMode.Shaded ≠ RenderMode.Samples) ∧
    ([((0 : ℕ), (⟨1, 2, 3⟩ : Vec3)), (0, ⟨3, 4, 5⟩)] ≠ []) ∧
    (renderAccum RenderMode.Shaded [(0, ⟨1, 2, 3⟩), (0, ⟨3, 4, 5⟩)]).r = 2 := by
  refine ⟨by simp, by simp, ?_⟩
  have h := (C6_running_mean RenderMode.Shaded (by simp)
    [(0, ⟨1, 2, 3⟩), (0, ⟨3, 4, 5⟩)] (by simp)).2.1
  rw [h]
  norm_num

/-- C9: a unit-length ray direction stays unit length (squared norm 1) after
`Ray::advance` for any distance (the direction is unchanged), after
`Ray::reflect` with any unit-length normal, and after each in-marcher
distortion rotation `normalize(direction + force)` (whenever the vector
being normalized is nonzero). -/
theorem C9_unit_direction_preserved :
    (∀ (r : Ray) (d : ℝ), r.direction.norm2 = 1 → (r.advance d).direction.norm2 = 1) ∧
    (∀ (r : Ray) (n : Vec3), n.norm2 = 1 → r.direction.norm2 = 1 →
      (r.reflect n).direction.norm2 = 1) ∧
    (∀ (direction force : Vec3), direction.norm2 = 1 →
      direction + force ≠ Vec3.zero → (distortionNewDir direction force).norm2 = 1) := by
  refine ⟨?_, ?_, ?_⟩
  · intro r d h
    exact h
  · intro r n hn hd
    simp only [Ray.reflect]
    simp only [Vec3.norm2, Vec3.dot, Vec3.sub_def, Vec3.smul] at hn hd ⊢
    linear_combination hd +
      4 * (r.direction.x * n.x + r.direction.y * n.y + r.direction.z * n.z) ^ 2 * hn
  · intro direction force _ hnz
    exact Vec3.norm2_normalize _ hnz

/-- C9 witness: the invariant holds on the concrete unit direction (1,0,0)
advanced by 5, reflected in the unit normal (0,0,1), and rotated by the
force (3,0,0). -/
theorem C9_unit_direction_preserved_witness :
    ((⟨Vec3.zero, ⟨1, 0, 0⟩, 0, RayKind.Primary⟩ : Ray).advance 5).direction.norm2 = 1 ∧
    ((⟨Vec3.zero, ⟨1, 0, 0⟩, 0, RayKind.Primary⟩ : Ray).reflect ⟨0, 0, 1⟩).direction.norm2 = 1 ∧
    (distortionNewDir ⟨1, 0, 0⟩ ⟨3, 0, 0⟩).norm2 = 1 := by
  refine ⟨?_, ?_, ?_⟩
  · exact C9_unit_direction_preserved.1 _ 5 (by norm_num [Vec3.norm2, Vec3.dot])
  · exact C9_unit_direction_preserved.2.1 _ ⟨0, 0, 1⟩
      (by norm_num [Vec3.norm2, Vec3.dot]) (by norm_num [Vec3.norm2, Vec3.dot])
  · refine C9_unit_direction_preserved.2.2 ⟨1, 0, 0⟩ ⟨3, 0, 0⟩
      (by norm_num [Vec3.norm2, Vec3.dot]) ?_
    intro h
    simp only [Vec3.add_def, Vec3.zero, Vec3.mk.injEq] at h
    norm_num at h

/-- Two nonzero vectors with equal normalizations have proportional y and z
components. -/
theorem Vec3.normalize_cross_yz (v w : Vec3) (hv : v.norm2 ≠ 0) (hw : w.norm2 ≠ 0)
    (h : v.normalize = w.normalize) : v.y * w.z = v.z * w.y := by
  have hvpos : 0 < v.norm2 := lt_of_le_of_ne (Vec3.norm2_nonneg v) (Ne.symm hv)
  have hwpos : 0 < w.norm2 := lt_of_le_of_ne (Vec3.norm2_nonneg w) (Ne.symm hw)
  have hs : 0 < Real.sqrt v.norm2 := Real.sqrt_pos.mpr hvpos
  have ht : 0 < Real.sqrt w.norm2 := Real.sqrt_pos.mpr hwpos
  have hy := congrArg Vec3.y h
  have hz := congrArg Vec3.z h
  simp only [Vec3.normalize, Vec3.divScalar, Vec3.magnitude] at hy hz
  rw [div_eq_div_iff (ne_of_gt hs) (ne_of_gt ht)] at hy hz
  have key : Real.sqrt w.norm2 * (v.y * w.z) = Real.sqrt w.norm2 * (v.z * w.y) := by
    linear_combination w.z * hy - w.y * hz
  exact mul_left_cancel₀ (ne_of_gt ht) key

/-- C8 counterexample: with the identity rotation, fov 90°, u = 1/2, v = 1
and aspect 2, the direction returned by `cast_ray` is
normalize(0, -1/2, -1) — the code additionally divides `up` by the aspect —
while the claim's formula, with side and up scaled only by
tan(hor_fov·π/360), gives normalize(0, -1, -1); the two are different
vectors. -/
theorem C8_cast_ray_counterexample :
    (camIdent.cast_ray (1/2) 1 2).direction ≠
      Vec3.normalize ((Mat3.identity.mulVec ⟨0, 0, -1⟩ +
        ((Mat3.identity.mulVec ⟨1, 0, 0⟩).smul
          (Real.tan (90 / 360 * Real.pi))).smul (2 * (1/2) - 1)) -
        ((Mat3.identity.mulVec ⟨0, 1, 0⟩).smul
          (Real.tan (90 / 360 * Real.pi))).smul (2 * 1 - 1)) := by
  have htan : Real.tan ((90 : ℝ) / 360 * Real.pi) = 1 := by
    rw [show (90 : ℝ) / 360 * Real.pi = Real.pi / 4 by ring, Real.tan_pi_div_four]
  intro h
  unfold Camera.cast_ray camIdent at h
  simp only [htan, Mat3.mulVec, Mat3.identity, Vec3.smul, Vec3.divScalar,
    Vec3.add_def, Vec3.sub_def] at h
  norm_num at h
  refine absurd (Vec3.normalize_cross_yz _ _ ?_ ?_ h) ?_
  · norm_num [Vec3.norm2, Vec3.dot]
  · norm_num [Vec3.norm2, Vec3.dot]
  · norm_num

/-- C8 (amended): `cast_ray(u, v, aspect)` returns the ray at the camera
location with `steps_taken = 0` and kind Primary whose direction is
normalize(forward + side·(2u−1) − up·(2v−1)), where forward, side, up are
rot_mat applied to (0,0,−1), (1,0,0), (0,1,0), side and up are scaled by
tan(hor_fov·π/360), and up is additionally divided by the aspect. -/
theorem C8_cast_ray_amended (cam : Camera) (x y aspect : ℝ) :
    cam.cast_ray x y aspect =
      { location := cam.location
        direction := Vec3.normalize
          ((cam.rot_mat.mulVec ⟨0, 0, -1⟩ +
            ((cam.rot_mat.mulVec ⟨1, 0, 0⟩).smul
              (Real.tan (cam.hor_fov * Real.pi / 360))).smul (2 * x - 1)) -
           (((cam.rot_mat.mulVec ⟨0, 1, 0⟩).smul
              (Real.tan (cam.hor_fov * Real.pi / 360))).divScalar aspect).smul (2 * y - 1))
        steps_taken := 0
        kind := RayKind.Primary } := by
  unfold Camera.cast_ray
  rw [show cam.hor_fov * Real.pi / 360 = cam.hor_fov / 360 * Real.pi by ring]

/-- C7: at a position inside a single active distortion, the field strength
is strength/(dist(p)+radius)²; the marcher loses the ray exactly when that
strength exceeds 9.0 or when the bent direction
normalize(dir + normalize(center−p)·dst·strength_at(p)) turns against the
old direction (negative dot product); otherwise the ray continues with
exactly the bent direction. -/
theorem C7_distortion_application (d : Distortion) (dst : ℝ) (ray : Ray) :
    (d.strengthAt ray.location =
      d.strength / (d.dist_fn ray.location + d.shape.radius) ^ 2) ∧
    (applyDistortions dst [d] ray = none ↔
      (9 < d.strengthAt ray.location ∨
        ray.direction.dot (distortionNewDir ray.direction
          ((((d.shape.center - ray.location).normalize).smul dst).smul
            (d.strengthAt ray.location))) < 0)) ∧
    (applyDistortions dst [d] ray =
      if 9 < d.strengthAt ray.location then none
      else if ray.direction.dot (distortionNewDir ray.direction
          ((((d.shape.center - ray.location).normalize).smul dst).smul
            (d.strengthAt ray.location))) < 0 then none
      else some { ray with direction := (distortionNewDir ray.direction
          ((((d.shape.center - ray.location).normalize).smul dst).smul
            (d.strengthAt ray.location))) }) := by
  have hrw : applyDistortions dst [d] ray =
      if 9 < d.strengthAt ray.location then none
      else if ray.direction.dot (distortionNewDir ray.direction
          ((((d.shape.center - ray.location).normalize).smul dst).smul
            (d.strengthAt ray.location))) < -0 then none
      else some { ray with direction := (distortionNewDir ray.direction
          ((((d.shape.center - ray.location).normalize).smul dst).smul
            (d.strengthAt ray.location))) } := rfl
  simp only [neg_zero] at hrw
  refine ⟨rfl, ?_, hrw⟩
  rw [hrw]
  by_cases h9 : 9 < d.strengthAt ray.location
  · simp [h9]
  · by_cases hdot : ray.direction.dot (distortionNewDir ray.direction
        ((((d.shape.center - ray.location).normalize).smul dst).smul
          (d.strengthAt ray.location))) < 0
    · simp [h9, hdot]
    · simp [h9, hdot]

/-- C4 (code_bug evidence): `BlackmanHarrisFilter::new` initializes
`first_sample` to `false`, so the filter's very first offset is already
LUT-warped jitter — for every draw stream and lookup table — and for a
concrete stream and table the first offset differs from (0.5, 0.5), while
`BoxFilter::new` initializes `first_sample` to `true` and its first offset
is exactly (0.5, 0.5). -/
theorem C4_blackman_harris_first_sample_bug :
    (∀ (fs : ℝ) (g : ℕ → ℝ) (lut : ℝ → ℝ),
      ((BlackmanHarrisFilter.new fs g lut).next).1 =
        ((lut (g 0) - 0.5) * fs + 0.5, (lut (g 1) - 0.5) * fs + 0.5)) ∧
    (∀ (fs : ℝ) (g : ℕ → ℝ), ((BoxFilter.new fs g).next).1 = (0.5, 0.5)) ∧
    (((BlackmanHarrisFilter.new 1 (fun _ => 1/4) id).next).1 ≠ (0.5, 0.5)) := by
  refine ⟨?_, ?_, ?_⟩
  · intro fs g lut
    rfl
  · intro fs g
    rfl
  · intro h
    have hfst := congrArg Prod.fst h
    norm_num [BlackmanHarrisFilter.new, BlackmanHarrisFilter.next] at hfst

/-- C1 counterexample: with NO active distortion, a solid object whose
`can_ray_hit` is false is not skipped by the object scan of the marching
loop — it still becomes the candidate hit and shrinks the step distance —
contradicting the claim that a solid object is skipped exactly when
`can_ray_hit` is false and `active_distortions` is empty. -/
theorem C1_solid_cull_counterexample :
    objectsScan rngZero [] rayZ [objNoHitNear] f64Max none 0 ≠
      objectsScan rngZero [] rayZ [] f64Max none 0 := by
  intro h
  have hL : objectsScan rngZero [] rayZ [objNoHitNear] f64Max none 0 =
      ObjScan.cont (min f64Max 0.000001) (some objNoHitNear) 0 := by
    simp only [objectsScan, objNoHitNear, shapeNoHitNear, shaderEnd]
    rw [if_neg (by simp), if_pos (by norm_num [f64Max])]
  have hR : objectsScan rngZero [] rayZ [] f64Max none 0 =
      ObjScan.cont f64Max none 0 := rfl
  rw [hL, hR] at h
  simp only [ObjScan.cont.injEq] at h
  exact Option.noConfusion h.2.1

/-- C1 (amended): in every iteration of the marching loop, a solid object is
skipped by the object scan exactly when its `can_ray_hit` is false AND the
active-distortion list is NON-empty; when no distortion is active the solid
object is always considered (never culled), and when `can_ray_hit` holds it
is likewise always considered. -/
theorem C1_solid_cull_amended (rng : ℕ → ℝ) (active : List Distortion)
    (ray : Ray) (o : Object) (rest : List Object) (dst : ℝ)
    (cand : Option Object) (k : ℕ) (sh : SolidShader)
    (hsolid : o.shading = Shading.solid sh) :
    (¬ o.shape.can_ray_hit ray ∧ active ≠ [] →
      objectsScan rng active ray (o :: rest) dst cand k =
        objectsScan rng active ray rest dst cand k) ∧
    (active = [] →
      objectsScan rng active ray (o :: rest) dst cand k =
        (if o.shape.dist_fn ray.location < dst then
          objectsScan rng active ray rest (min dst (o.shape.dist_fn ray.location))
            (some o) k
        else objectsScan rng active ray rest dst cand k)) ∧
    (o.shape.can_ray_hit ray →
      objectsScan rng active ray (o :: rest) dst cand k =
        (if o.shape.dist_fn ray.location < dst then
          objectsScan rng active ray rest (min dst (o.shape.dist_fn ray.location))
            (some o) k
        else objectsScan rng active ray rest dst cand k)) := by
  refine ⟨?_, ?_, ?_⟩
  · intro hskip
    simp only [objectsScan, hsolid]
    rw [if_pos hskip]
  · intro hact
    subst hact
    simp only [objectsScan, hsolid]
    rw [if_neg (by simp)]
  · intro hcan
    simp only [objectsScan, hsolid]
    rw [if_neg (by simp [hcan])]

/-- C1 amended witness: with one active distortion, the concrete object with
a failing cull test is dropped from the scan; with no active distortion the
same object is considered. -/
theorem C1_solid_cull_amended_witness :
    (objectsScan rngZero [distortionDefault] rayZ [objNoHitNear] f64Max none 0 =
      objectsScan rngZero [distortionDefault] rayZ [] f64Max none 0) ∧
    (objectsScan rngZero [] rayZ [objNoHitNear] f64Max none 0 =
      (if objNoHitNear.shape.dist_fn rayZ.location < f64Max then
        objectsScan rngZero [] rayZ []
          (min f64Max (objNoHitNear.shape.dist_fn rayZ.location)) (some objNoHitNear) 0
      else objectsScan rngZero [] rayZ [] f64Max none 0)) := by
  constructor
  · exact (C1_solid_cull_amended rngZero [distortionDefault] rayZ objNoHitNear []
      f64Max none 0 shaderEnd rfl).1
      ⟨by simp [objNoHitNear, shapeNoHitNear], by simp⟩
  · exact (C1_solid_cull_amended rngZero [] rayZ objNoHitNear []
      f64Max none 0 shaderEnd rfl).2.1 rfl

/-- C5: `color_for_ray` returns `{ray.steps_taken, 0}` whenever
`depth ≥ max_depth`, and the default marcher has `max_depth = 16`; below the
depth limit: on an object hit whose mode-dispatched material carries a
continuation ray it recurses at `depth+1` and returns the recursion's step
count together with `emission + albedo ⊙ recursive colour`; with no
continuation it returns the marched ray's steps and the emission; on a
background result it returns the background shader's emission at the
marched ray; on a lost ray it returns colour 0. -/
theorem C5_color_for_ray_structure (m : RayMarcher) (scene : Scene)
    (maxStep : ℝ) (rng : ℕ → ℝ) (ray : Ray) (depth k : ℕ) :
    (RayMarcher.defaultMarcher.max_depth = 16) ∧
    (m.max_depth ≤ depth →
      colorForRay m scene maxStep rng ray depth k = ⟨ray.steps_taken, Vec3.zero⟩) ∧
    (∀ o ray' k' mat new_ray, depth < m.max_depth →
      marchToObject m scene maxStep rng ray k = (MarchResult.object o, ray', k') →
      getColor m ray' m.mode o = (mat, some new_ray) →
      colorForRay m scene maxStep rng ray depth k =
        ⟨(colorForRay m scene maxStep rng new_ray (depth + 1) k').steps,
         mat.emission + mat.albedo.mulElementWise
           (colorForRay m scene maxStep rng new_ray (depth + 1) k').color⟩) ∧
    (∀ o ray' k' mat, depth < m.max_depth →
      marchToObject m scene maxStep rng ray k = (MarchResult.object o, ray', k') →
      getColor m ray' m.mode o = (mat, none) →
      colorForRay m scene maxStep rng ray depth k = ⟨ray'.steps_taken, mat.emission⟩) ∧
    (∀ direction ray' k', depth < m.max_depth →
      marchToObject m scene maxStep rng ray k =
        (MarchResult.background direction, ray', k') →
      colorForRay m scene maxStep rng ray depth k =
        ⟨ray'.steps_taken, scene.background ray'⟩) ∧
    (∀ ray' k', depth < m.max_depth →
      marchToObject m scene maxStep rng ray k = (MarchResult.none, ray', k') →
      colorForRay m scene maxStep rng ray depth k = ⟨ray'.steps_taken, Vec3.zero⟩) := by
  refine ⟨rfl, ?_, ?_, ?_, ?_, ?_⟩
  · intro hle
    rw [colorForRay.eq_def, dif_pos hle]
  · intro o ray' k' mat new_ray hlt hmarch hget
    rw [colorForRay.eq_def, dif_neg (not_le.mpr hlt), hmarch]
    simp only [hget]
  · intro o ray' k' mat hlt hmarch hget
    rw [colorForRay.eq_def, dif_neg (not_le.mpr hlt), hmarch]
    simp only [hget]
  · intro direction ray' k' hlt hmarch
    rw [colorForRay.eq_def, dif_neg (not_le.mpr hlt), hmarch]
  · intro ray' k' hlt hmarch
    rw [colorForRay.eq_def, dif_neg (not_le.mpr hlt), hmarch]

/-- C5 witness: concrete marches exercising every branch — depth exhaustion,
an object hit with a continuation ray, an object hit terminating the path, a
background escape, and a lost ray (step budget 0). -/
theorem C5_color_for_ray_structure_witness :
    (colorForRay mShaded1 sceneEmpty 5 rngZero rayZ 1 0 =
      ⟨rayZ.steps_taken, Vec3.zero⟩) ∧
    (colorForRay mShaded1 sceneHitCont 5 rngZero rayZ 0 0 =
      ⟨(colorForRay mShaded1 sceneHitCont 5 rngZero rayCont 1 0).steps,
       matRed.emission + matRed.albedo.mulElementWise
         (colorForRay mShaded1 sceneHitCont 5 rngZero rayCont 1 0).color⟩) ∧
    (colorForRay mShaded1 sceneHitEnd 5 rngZero rayZ 0 0 =
      ⟨rayZ.steps_taken, matRed.emission⟩) ∧
    (colorForRay mShaded1 sceneEmpty 5 rngZero rayZ 0 0 =
      ⟨rayZ.steps_taken, bgGray rayZ⟩) ∧
    (colorForRay mShaded0 sceneFar 5 rngZero rayZ 0 0 =
      ⟨rayZ.steps_taken, Vec3.zero⟩) := by
  have hmin0 : min f64Max (0 : ℝ) = 0 := min_eq_right (by norm_num [f64Max])
  have hmin1 : min f64Max (1 : ℝ) = 1 := min_eq_right (by norm_num [f64Max])
  have hA : marchToObject mShaded1 sceneHitCont 5 rngZero rayZ 0 =
      (MarchResult.object objHitCont, rayZ, 0) := by
    rw [marchToObject, marchLoop.eq_def]
    simp only [sceneHitCont, List.foldl]
    have hscan : objectsScan rngZero [] rayZ [objHitCont] f64Max none 0 =
        ObjScan.cont 0 (some objHitCont) 0 := by
      simp only [objectsScan, objHitCont, shapeHit, shaderCont]
      rw [if_neg (by simp), if_pos (by norm_num [f64Max])]
      rw [hmin0]
    rw [hscan]
    simp only
    rw [if_pos (by norm_num)]
  have hB : marchToObject mShaded1 sceneHitEnd 5 rngZero rayZ 0 =
      (MarchResult.object objHitEnd, rayZ, 0) := by
    rw [marchToObject, marchLoop.eq_def]
    simp only [sceneHitEnd, List.foldl]
    have hscan : objectsScan rngZero [] rayZ [objHitEnd] f64Max none 0 =
        ObjScan.cont 0 (some objHitEnd) 0 := by
      simp only [objectsScan, objHitEnd, shapeHit, shaderEmit]
      rw [if_neg (by simp), if_pos (by norm_num [f64Max])]
      rw [hmin0]
    rw [hscan]
    simp only
    rw [if_pos (by norm_num)]
  have hC : marchToObject mShaded1 sceneEmpty 5 rngZero rayZ 0 =
      (MarchResult.background rayZ.direction, rayZ, 0) := by
    rw [marchToObject, marchLoop.eq_def]
    simp only [sceneEmpty, List.foldl, objectsScan, applyDistortions]
    rw [if_pos (by norm_num [f64Max])]
  have hD : marchToObject mShaded0 sceneFar 5 rngZero rayZ 0 =
      (MarchResult.none, rayZ, 0) := by
    rw [marchToObject, marchLoop.eq_def]
    simp only [sceneFar, List.foldl]
    have hscan : objectsScan rngZero [] rayZ [objFar] f64Max none 0 =
        ObjScan.cont 1 (some objFar) 0 := by
      simp only [objectsScan, objFar, shapeFar, shaderEnd]
      rw [if_neg (by simp), if_pos (by norm_num [f64Max])]
      rw [hmin1]
    rw [hscan]
    simp only [applyDistortions]
    rw [if_neg (by norm_num), if_neg (by norm_num), dif_pos (by norm_num [mShaded0])]
  refine ⟨?_, ?_, ?_, ?_, ?_⟩
  · exact (C5_color_for_ray_structure mShaded1 sceneEmpty 5 rngZero rayZ 1 0).2.1
      (by norm_num [mShaded1])
  · exact (C5_color_for_ray_structure mShaded1 sceneHitCont 5 rngZero rayZ 0 0).2.2.1
      objHitCont rayZ 0 matRed rayCont (by norm_num [mShaded1]) hA rfl
  · exact (C5_color_for_ray_structure mShaded1 sceneHitEnd 5 rngZero rayZ 0 0).2.2.2.1
      objHitEnd rayZ 0 matRed (by norm_num [mShaded1]) hB rfl
  · exact (C5_color_for_ray_structure mShaded1 sceneEmpty 5 rngZero rayZ 0 0).2.2.2.2.1
      rayZ.direction rayZ 0 (by norm_num [mShaded1]) hC
  · exact (C5_color_for_ray_structure mShaded0 sceneFar 5 rngZero rayZ 0 0).2.2.2.2.2
      rayZ 0 (by norm_num [mShaded0]) hD

end BlackHole

end
